import Mathlib

/-!
Shallow embedding of the MacMemory scanner (src/macmemory.cpp).

The embedding models the typed scan/refine engine: the value codec
(textual literal to fixed-width little-endian byte buffer and back), the
initial full-region scan `firstScan`, the iterative refine pass
`nextScan`, the single-address watch loop `watchAddress`, and the save
serialization `saveResults`.

Machine integers are modelled as `Nat`/`Int` with explicit `% 2^w`
wraparound where the C++ code converts or overflows.  Floating-point
parsing, ordering and printing (std::stof/stod, float compare, ostream
rendering) and the OS memory-read primitive are collaborators supplied
through an `Env` record of functions; every other operation is
translated directly from the source.  Byte buffers are `List Nat` with
values reduced mod 256 at the points where the C++ code stores into
`uint8_t` storage.
-/

/-- The `ValueType` enum of the source (BYTE..UNKNOWN, in declaration
order, so that `typeOrdinal` below matches `static_cast<int>`). -/
inductive ValueType where
  | BYTE | INT16 | INT32 | INT64 | FLOAT | DOUBLE | STRING | UNKNOWN
deriving DecidableEq

/-- `struct MemoryRegion` (the fields the scan engine consumes). -/
structure MemoryRegion where
  start : Nat
  size : Nat
  readable : Bool
  writable : Bool
  executable : Bool
deriving DecidableEq

/-- `struct ScanResult`: one match. -/
structure ScanResult where
  address : Nat
  type : ValueType
  value : List Nat
  description : String
deriving DecidableEq

/-- The `MemoryScanner` fields the embedded operations touch. -/
structure ScanState where
  memoryRegions : List MemoryRegion
  scanResults : List ScanResult
  previousScanResults : List ScanResult
  targetName : String
  targetPid : Nat
  isAttached : Bool
deriving DecidableEq

/-- Collaborator functions: the OS read primitive and the
floating-point operations (std::stof/stod byte images, float/double
ordering on 4- and 8-byte images, ostream rendering), which have no
finite shallow embedding of their own. -/
structure Env where
  readMem : Nat → Nat → Option (List Nat)
  stofBytes : String → Option (List Nat)
  stodBytes : String → Option (List Nat)
  fltGt : List Nat → List Nat → Bool
  fltLt : List Nat → List Nat → Bool
  dblGt : List Nat → List Nat → Bool
  dblLt : List Nat → List Nat → Bool
  renderFloat : List Nat → String
  renderDouble : List Nat → String

/-- An inert environment: every read fails, every float operation is
trivial.  Used to instantiate theorems on concrete inputs. -/
def trivEnv : Env where
  readMem := fun _ _ => none
  stofBytes := fun _ => none
  stodBytes := fun _ => none
  fltGt := fun _ _ => false
  fltLt := fun _ _ => false
  dblGt := fun _ _ => false
  dblLt := fun _ _ => false
  renderFloat := fun _ => ""
  renderDouble := fun _ => ""

/-- `readMemoryBlock(address, buffer, size)`: succeeds only when the
full `size` bytes arrive (`data_size == size`); the bytes land in
`uint8_t` storage, hence the reduction mod 256. -/
def readMemOk (env : Env) (address n : Nat) : Option (List Nat) :=
  match env.readMem address n with
  | none => none
  | some bs => if bs.length = n then some (bs.map (fun b => b % 256)) else none

/-- Whitespace as recognised by the `std::stoi` family (isspace). -/
def isSpaceCh (c : Char) : Bool :=
  c = ' ' || c = '\t' || c = '\n' || c.toNat = 11 || c.toNat = 12 || c = '\r'

/-- Decimal digit. -/
def isDigitCh (c : Char) : Bool :=
  48 ≤ c.toNat && c.toNat ≤ 57

/-- Accumulate a run of decimal digits. -/
def digitsToNat (ds : List Char) : Nat :=
  ds.foldl (fun a c => a * 10 + (c.toNat - 48)) 0

/-- The common front end of `std::stoi`/`std::stoll` (base 10): skip
whitespace, take an optional sign, then a nonempty maximal digit run;
trailing characters are ignored.  `none` models the
`std::invalid_argument` throw when no digits are present. -/
def parseIntCore (cs : List Char) : Option (Bool × Nat) :=
  let cs1 := cs.dropWhile isSpaceCh
  let p := match cs1 with
    | c :: rest =>
        if c = '-' then (true, rest)
        else if c = '+' then (false, rest)
        else (false, c :: rest)
    | [] => (false, ([] : List Char))
  let ds := p.2.takeWhile isDigitCh
  if ds.isEmpty then none else some (p.1, digitsToNat ds)

/-- `std::stoi`: parse failure and out-of-`int`-range values both throw
(modelled as `none`); `int` is 32-bit on the target platform. -/
def stoiM (s : String) : Option Int :=
  match parseIntCore s.data with
  | none => none
  | some p =>
      let v : Int := if p.1 then -(p.2 : Int) else (p.2 : Int)
      if v < -(2 ^ 31 : Int) || (2 ^ 31 - 1 : Int) < v then none else some v

/-- `std::stoll`: as `stoiM` with the 64-bit `long long` range. -/
def stollM (s : String) : Option Int :=
  match parseIntCore s.data with
  | none => none
  | some p =>
      let v : Int := if p.1 then -(p.2 : Int) else (p.2 : Int)
      if v < -(2 ^ 63 : Int) || (2 ^ 63 - 1 : Int) < v then none else some v

/-- Little-endian byte image of a (previously wrapped) natural number,
`w` bytes wide - the `memcpy` of an integer into the target buffer. -/
def natToBytesLE (w n : Nat) : List Nat :=
  (List.range w).map (fun i => n / 256 ^ i % 256)

/-- Read a little-endian byte buffer back as an unsigned number. -/
def bytesToNatLE (bs : List Nat) : Nat :=
  bs.foldr (fun b acc => acc * 256 + b % 256) 0

/-- Two's-complement reinterpretation of the first `w` bytes, as done by
the `reinterpret_cast` to a signed integer type. -/
def toSignedLE (w : Nat) (bs : List Nat) : Int :=
  let n := bytesToNatLE (bs.take w)
  if n < 2 ^ (8 * w - 1) then (n : Int) else (n : Int) - 2 ^ (8 * w)

/-- Byte image of the literal text (`value.c_str()` copied for
`value.length()` bytes). -/
def strBytes (s : String) : List Nat :=
  s.data.map (fun ch => ch.toNat % 256)

/-- Pad or cut a collaborator-supplied byte image to the width
`sizeof(T)` that the C++ buffer actually has. -/
def fixWidth (w : Nat) (bs : List Nat) : List Nat :=
  ((bs ++ List.replicate w 0).take w).map (fun b => b % 256)

/-- Outcome of encoding the search literal (the `switch (type)` blocks
at the top of `firstScan` and `nextScan`). -/
inductive EncodeResult where
  | ok (bytes : List Nat)
  | parseFail
  | unsupportedType
deriving DecidableEq

/-- Encode the textual literal into the target byte buffer, exactly as
the `switch (type)` in `firstScan`/`nextScan` does: `stoi` with a
truncating `static_cast` for BYTE/INT16, `stoi`/`stoll` for
INT32/INT64, `stof`/`stod` for the float kinds, the raw text bytes for
STRING, and the `default:` early return for UNKNOWN. -/
def encodeValue (env : Env) (t : ValueType) (value : String) : EncodeResult :=
  match t with
  | .BYTE =>
      match stoiM value with
      | none => .parseFail
      | some v => .ok (natToBytesLE 1 (v.emod 256).toNat)
  | .INT16 =>
      match stoiM value with
      | none => .parseFail
      | some v => .ok (natToBytesLE 2 (v.emod 65536).toNat)
  | .INT32 =>
      match stoiM value with
      | none => .parseFail
      | some v => .ok (natToBytesLE 4 (v.emod 4294967296).toNat)
  | .INT64 =>
      match stollM value with
      | none => .parseFail
      | some v => .ok (natToBytesLE 8 (v.emod 18446744073709551616).toNat)
  | .FLOAT =>
      match env.stofBytes value with
      | none => .parseFail
      | some bs => .ok (fixWidth 4 bs)
  | .DOUBLE =>
      match env.stodBytes value with
      | none => .parseFail
      | some bs => .ok (fixWidth 8 bs)
  | .STRING => .ok (strBytes value)
  | .UNKNOWN => .unsupportedType

/-- `memcmp(a, b, w) == 0`: the first `w` bytes agree. -/
def memcmpEq (a b : List Nat) (w : Nat) : Bool :=
  a.take w == b.take w

/-- The `comparison == "greater"` switch: unsigned compare for BYTE,
two's-complement compare for the integer kinds, the float collaborator
for FLOAT/DOUBLE, and the silent `default: break;` (never a match) for
STRING and UNKNOWN. -/
def numGt (env : Env) (t : ValueType) (a b : List Nat) : Bool :=
  match t with
  | .BYTE => decide (bytesToNatLE (a.take 1) > bytesToNatLE (b.take 1))
  | .INT16 => decide (toSignedLE 2 a > toSignedLE 2 b)
  | .INT32 => decide (toSignedLE 4 a > toSignedLE 4 b)
  | .INT64 => decide (toSignedLE 8 a > toSignedLE 8 b)
  | .FLOAT => env.fltGt (a.take 4) (b.take 4)
  | .DOUBLE => env.dblGt (a.take 8) (b.take 8)
  | .STRING => false
  | .UNKNOWN => false

/-- The `comparison == "less"` switch, mirror of `numGt`. -/
def numLt (env : Env) (t : ValueType) (a b : List Nat) : Bool :=
  match t with
  | .BYTE => decide (bytesToNatLE (a.take 1) < bytesToNatLE (b.take 1))
  | .INT16 => decide (toSignedLE 2 a < toSignedLE 2 b)
  | .INT32 => decide (toSignedLE 4 a < toSignedLE 4 b)
  | .INT64 => decide (toSignedLE 8 a < toSignedLE 8 b)
  | .FLOAT => env.fltLt (a.take 4) (b.take 4)
  | .DOUBLE => env.dblLt (a.take 8) (b.take 8)
  | .STRING => false
  | .UNKNOWN => false

/-- The per-offset predicate of `firstScan`: its if/else chain knows
only exact, greater and less (`found` stays false for anything else). -/
def evalPredFirst (env : Env) (t : ValueType) (c : String)
    (window target : List Nat) (w : Nat) : Bool :=
  if c = "exact" then memcmpEq window target w
  else if c = "greater" then numGt env t window target
  else if c = "less" then numLt env t window target
  else false

/-- The per-address predicate of `nextScan`: exact/greater/less as in
the first pass, plus changed/unchanged which `memcmp` the fresh bytes
against the match's previously stored bytes (`prevResult.value`) - the
search literal is not consulted by those two branches. -/
def evalPredNext (env : Env) (t : ValueType) (c : String)
    (cur target prevBytes : List Nat) (w : Nat) : Bool :=
  if c = "exact" then memcmpEq cur target w
  else if c = "greater" then numGt env t cur target
  else if c = "less" then numLt env t cur target
  else if c = "changed" then !memcmpEq cur prevBytes w
  else if c = "unchanged" then memcmpEq cur prevBytes w
  else false

/-- Render the description string (the `std::stringstream` switch):
BYTE prints as the unsigned 0..255 value, the integer kinds as signed
decimals, the float kinds through the collaborator, STRING quoted with
the buffer length as the string length. -/
def renderDesc (env : Env) (t : ValueType) (bs : List Nat) : String :=
  match t with
  | .BYTE => Nat.repr (bytesToNatLE (bs.take 1))
  | .INT16 => toString (toSignedLE 2 bs)
  | .INT32 => toString (toSignedLE 4 bs)
  | .INT64 => toString (toSignedLE 8 bs)
  | .FLOAT => env.renderFloat (bs.take 4)
  | .DOUBLE => env.renderDouble (bs.take 8)
  | .STRING => "\"" ++ String.mk (bs.map (fun b => Char.ofNat (b % 256))) ++ "\""
  | .UNKNOWN => "Unknown"

/-- `size_t` subtraction `a - b` as the C++ loop bound computes it:
unsigned 64-bit wraparound (this is where `buffer.size() - valueSize`
underflows when the buffer is smaller than the value). -/
def cppSub64 (a b : Nat) : Nat :=
  (a + (2 ^ 64 - b % 2 ^ 64)) % 2 ^ 64

/-- The offsets visited by the window loop
`for (offset = 0; offset <= buffer.size() - valueSize; offset++)`. -/
def offsetList (len w : Nat) : List Nat :=
  List.range (cppSub64 len w + 1)

/-- The inner offset loop of `firstScan` over one copied region buffer:
evaluate the predicate at each offset, append matches, and stop as soon
as the running hit counter reaches 10000.  Returns the grown
accumulator and the updated counter. -/
def scanOffsets (env : Env) (t : ValueType) (c : String) (target : List Nat)
    (w : Nat) (base : Nat) (buf : List Nat) :
    List Nat → List ScanResult → Nat → List ScanResult × Nat
  | [], acc, hits => (acc, hits)
  | o :: rest, acc, hits =>
      let window := (buf.drop o).take w
      if evalPredFirst env t c window target w then
        let r : ScanResult :=
          { address := base + o, type := t, value := window
            description := renderDesc env t window }
        if hits + 1 ≥ 10000 then (acc ++ [r], hits + 1)
        else scanOffsets env t c target w base buf rest (acc ++ [r]) (hits + 1)
      else scanOffsets env t c target w base buf rest acc hits

/-- The region loop of `firstScan`: skip non-readable regions, skip
regions whose block read fails, scan the copied buffer, and stop
scanning further regions once the hit counter has reached 10000. -/
def scanRegions (env : Env) (t : ValueType) (c : String) (target : List Nat)
    (w : Nat) : List MemoryRegion → List ScanResult → Nat → List ScanResult
  | [], acc, _ => acc
  | r :: rest, acc, hits =>
      if r.readable = false then scanRegions env t c target w rest acc hits
      else
        match readMemOk env r.start r.size with
        | none => scanRegions env t c target w rest acc hits
        | some buf =>
            let p := scanOffsets env t c target w r.start buf
              (offsetList buf.length w) acc hits
            if p.2 ≥ 10000 then p.1
            else scanRegions env t c target w rest p.1 p.2

/-- Outcome of a `firstScan` invocation: normal completion, the
exception escaping the literal parse, or the `default:` early return
for an unsupported type. -/
inductive FirstOutcome where
  | ok | encodingError | unsupportedType
deriving DecidableEq

/-- `MemoryScanner::firstScan`: clear both result generations, encode
the literal (aborting on failure), then run the region scan and install
its matches as the new current generation. -/
def firstScan (env : Env) (st : ScanState) (t : ValueType) (value : String)
    (comparison : String) : FirstOutcome × ScanState :=
  let st1 := { st with scanResults := [], previousScanResults := [] }
  match encodeValue env t value with
  | .parseFail => (.encodingError, st1)
  | .unsupportedType => (.unsupportedType, st1)
  | .ok target =>
      let w := target.length
      let res := scanRegions env t comparison target w st.memoryRegions [] 0
      (.ok, { st1 with scanResults := res })

/-- Outcome of a `nextScan` invocation. -/
inductive NextOutcome where
  | ok | noPriorResults | encodingError | unsupportedType
deriving DecidableEq

/-- The refine loop of `nextScan` over the previous generation, in its
original order: re-read `w` bytes at each stored address (silently
dropping the address on read failure), evaluate the predicate, and on
success keep the match with the freshly read bytes and a freshly
rendered description.  No hit ceiling appears in this loop. -/
def refineLoop (env : Env) (t : ValueType) (c : String) (target : List Nat)
    (w : Nat) : List ScanResult → List ScanResult
  | [] => []
  | pr :: rest =>
      match readMemOk env pr.address w with
      | none => refineLoop env t c target w rest
      | some cur =>
          if evalPredNext env t c cur target pr.value w then
            { pr with value := cur, description := renderDesc env t cur } ::
              refineLoop env t c target w rest
          else refineLoop env t c target w rest

/-- `MemoryScanner::nextScan`: refuse when the current generation is
empty, otherwise move current into previous, clear current, encode the
literal (aborting on failure), and refine. -/
def nextScan (env : Env) (st : ScanState) (t : ValueType) (value : String)
    (comparison : String) : NextOutcome × ScanState :=
  if st.scanResults.isEmpty then (.noPriorResults, st)
  else
    let prev := st.scanResults
    let st1 := { st with previousScanResults := prev, scanResults := [] }
    match encodeValue env t value with
    | .parseFail => (.encodingError, st1)
    | .unsupportedType => (.unsupportedType, st1)
    | .ok target =>
        let w := target.length
        (.ok, { st1 with scanResults := refineLoop env t comparison target w prev })

/-- The comparison whitelist of `CLI::scanMemory` (exact, greater,
less): any of these reaches `firstScan` unquestioned. -/
def scanCmpAllowed (c : String) : Bool :=
  c == "exact" || c == "greater" || c == "less"

/-- The fixed watch width per type in `watchAddress` (STRING watches a
default 32 bytes, the `default:` arm 4). -/
def watchWidth (t : ValueType) : Nat :=
  match t with
  | .BYTE => 1
  | .INT16 => 2
  | .INT32 => 4
  | .INT64 => 8
  | .FLOAT => 4
  | .DOUBLE => 8
  | .STRING => 32
  | .UNKNOWN => 4

/-- One change event of the watch loop. -/
structure ChangeEvent where
  oldBytes : List Nat
  newBytes : List Nat
deriving DecidableEq

/-- The polled reads of the watch loop, indexed by iteration (each
`usleep` lets the target move on, so successive reads may differ):
`poll i` is the `readMemoryBlock` result of the i-th read.  The same
`data_size == size` success condition and `uint8_t` storage apply. -/
def pollOk (poll : Nat → Option (List Nat)) (w i : Nat) : Option (List Nat) :=
  match poll i with
  | none => none
  | some bs => if bs.length = w then some (bs.map (fun b => b % 256)) else none

/-- The `while (true)` body of `watchAddress`, with fuel standing for
the external Ctrl+C cancellation: read (a failure ends the loop),
report a change whenever the fresh bytes differ from the last-known
bytes and update them, then sleep and repeat.  The scanner state is
threaded through untouched, as the loop only owns its local buffer. -/
def watchLoop (poll : Nat → Option (List Nat)) (w : Nat) (st : ScanState) :
    Nat → Nat → List Nat → List ChangeEvent → ScanState × List ChangeEvent
  | 0, _, _, events => (st, events)
  | fuel + 1, i, lastValue, events =>
      match pollOk poll w i with
      | none => (st, events)
      | some cur =>
          if memcmpEq lastValue cur w then
            watchLoop poll w st fuel (i + 1) lastValue events
          else
            watchLoop poll w st fuel (i + 1) cur
              (events ++ [{ oldBytes := lastValue, newBytes := cur }])

/-- `MemoryScanner::watchAddress`: refuse when not attached, read the
baseline (a failure returns immediately), then poll.  The update
interval only feeds `usleep` and has no effect on the state or the
emitted events. -/
def watchAddress (poll : Nat → Option (List Nat)) (st : ScanState)
    (address : Nat) (t : ValueType) (updateInterval : Nat) (fuel : Nat) :
    ScanState × List ChangeEvent :=
  if st.isAttached = false then (st, [])
  else
    let w := watchWidth t
    match pollOk poll w 0 with
    | none => (st, [])
    | some init => watchLoop poll w st fuel 1 init []

/-- `static_cast<int>(result.type)`: the enum ordinal written to the
save file. -/
def typeOrdinal (t : ValueType) : Nat :=
  match t with
  | .BYTE => 0
  | .INT16 => 1
  | .INT32 => 2
  | .INT64 => 3
  | .FLOAT => 4
  | .DOUBLE => 5
  | .STRING => 6
  | .UNKNOWN => 7

/-- `std::hex` rendering of an unsigned value (lowercase, no padding,
"0" for zero). -/
def natToHex (n : Nat) : String :=
  String.mk (Nat.toDigits 16 n)

/-- One value byte in the save file: `std::hex << std::setw(2) <<
std::setfill('0')` of the 0..255 byte. -/
def byteToHex2 (b : Nat) : String :=
  let ds := Nat.toDigits 16 (b % 256)
  String.mk (if ds.length = 1 then '0' :: ds else ds)

/-- The hex-encoded raw bytes column. -/
def bytesToHex (bs : List Nat) : String :=
  String.join (bs.map byteToHex2)

/-- The ID column of row `i`.  The stream starts in decimal, but the
byte loop of each row leaves `std::hex` set and no row resets it before
writing the next ID, so every row after the first renders its ID in
hexadecimal. -/
def idRepr (i : Nat) : String :=
  if i = 0 then Nat.repr i else natToHex i

/-- One match line of the save file:
`id,0xADDRESS,kindOrdinal,hexbytes,description`. -/
def matchLine (i : Nat) (r : ScanResult) : String :=
  idRepr i ++ ",0x" ++ natToHex r.address ++ "," ++ Nat.repr (typeOrdinal r.type)
    ++ "," ++ bytesToHex r.value ++ "," ++ r.description

/-- The metadata block `saveResults` writes before the match lines. -/
def saveHeader (st : ScanState) (ts : Nat) : List String :=
  ["# MacMemory Scan Results",
   "# Process: " ++ st.targetName ++ " (PID: " ++ Nat.repr st.targetPid ++ ")",
   "# Timestamp: " ++ Nat.repr ts,
   "# Results: " ++ Nat.repr st.scanResults.length,
   "# Format: ID,Address,Type,Value,Description"]

/-- `MemoryScanner::saveResults` as the list of lines it writes (`none`
when the early return for an empty result set fires and no file content
is produced); `ts` is the `std::time(nullptr)` timestamp. -/
def saveResults (st : ScanState) (ts : Nat) : Option (List String) :=
  if st.scanResults.isEmpty then none
  else some (saveHeader st ts ++ st.scanResults.enum.map (fun p => matchLine p.1 p.2))

/-- A concrete stored match used to instantiate theorems. -/
def m0 : ScanResult :=
  { address := 4096, type := .BYTE, value := [0], description := "0" }

/-- An environment whose reads always deliver zero bytes. -/
def env0 : Env :=
  { trivEnv with readMem := fun _ n => some (List.replicate n 0) }

/-- An environment whose reads always deliver byte 72 (ASCII 'H'). -/
def envS : Env :=
  { trivEnv with readMem := fun _ n => some (List.replicate n 72) }

/-- A small readable region. -/
def regS : MemoryRegion :=
  { start := 0, size := 4, readable := true, writable := true, executable := false }

/-- Attached state with one current match. -/
def stSmall : ScanState :=
  { memoryRegions := [], scanResults := [m0], previousScanResults := []
    targetName := "t", targetPid := 1, isAttached := true }

/-- State whose current generation has 10001 matches (one more than the
first-pass ceiling). -/
def stBig : ScanState :=
  { stSmall with scanResults := List.replicate 10001 m0 }

/-- State with an empty current generation but a nonempty previous one. -/
def stEmptyRes : ScanState :=
  { stSmall with scanResults := [], previousScanResults := [m0] }

/-- State with both generations nonempty. -/
def stBoth : ScanState :=
  { stSmall with previousScanResults := [m0] }

/-- Attached state with one readable region and no results yet. -/
def stRegion : ScanState :=
  { stSmall with memoryRegions := [regS], scanResults := [] }

/-- Claim C2: the spec says a readable region whose copied byte length
is smaller than the search width contributes no candidate offsets.  In
the code, the loop bound `buffer.size() - valueSize` is computed in
`size_t`, so for a 2-byte buffer and a 4-byte value it underflows: the
offset loop visits 2^64 - 1 offsets, among them offset 0, whose 4-byte
window extends past the 2-byte buffer. -/
theorem scan_offset_underflow :
    0 ∈ offsetList 2 4 ∧ 2 < 0 + 4 ∧ (offsetList 2 4).length = 2 ^ 64 - 1 := by
  refine ⟨?_, by norm_num, ?_⟩
  · simp only [offsetList, List.mem_range]
    norm_num
  · simp only [offsetList, List.length_range, cppSub64]
    norm_num

/-- Claim C5: encoding kind Byte with literal "300" does not fail; the
parse succeeds with 300 and the `static_cast<uint8_t>` silently
truncates it to 44, after which the scan proceeds normally. -/
theorem byte_overflow_truncated :
    stoiM "300" = some 300 ∧
    encodeValue trivEnv .BYTE "300" = .ok [44] ∧
    (firstScan trivEnv stRegion .BYTE "300" "exact").1 = .ok := by
  exact ⟨by decide, by decide, by decide⟩

/-- Claim C6: the CLI comparison whitelist admits "greater" regardless
of the value kind, and `firstScan` with kind STRING and predicate
greater runs to normal completion over a readable region, silently
producing no matches instead of failing. -/
theorem text_greater_silently_empty :
    scanCmpAllowed "greater" = true ∧
    (firstScan envS stRegion .STRING "HI" "greater").1 = .ok ∧
    (firstScan envS stRegion .STRING "HI" "greater").2.scanResults = [] := by
  exact ⟨by decide, by decide, by decide⟩

/-- Claim C7: `nextScan` invoked while the current result set is empty
fails immediately with the no-prior-results outcome and returns the
scanner state completely unchanged. -/
theorem nextScan_empty_no_prior (env : Env) (st : ScanState) (t : ValueType)
    (v c : String) (h : st.scanResults = []) :
    nextScan env st t v c = (.noPriorResults, st) := by
  unfold nextScan
  rw [if_pos (by simp [h])]

/-- Witness for C7 at a concrete state with a nonempty previous
generation: neither generation is mutated. -/
theorem nextScan_empty_no_prior_witness :
    stEmptyRes.scanResults = [] ∧
    nextScan trivEnv stEmptyRes .BYTE "0" "exact" = (.noPriorResults, stEmptyRes) :=
  ⟨rfl, nextScan_empty_no_prior trivEnv stEmptyRes .BYTE "0" "exact" rfl⟩

/-- Claim C9: `firstScan` clears both generations before parsing the
literal, so the state it returns always has an empty previous
generation, and when the literal fails to encode the current
generation is empty as well. -/
theorem firstScan_clears (env : Env) (st : ScanState) (t : ValueType)
    (v c : String) :
    (firstScan env st t v c).2.previousScanResults = [] ∧
    ((firstScan env st t v c).1 ≠ .ok → (firstScan env st t v c).2.scanResults = []) := by
  unfold firstScan
  cases encodeValue env t v <;> simp

/-- Witness for C9: a parse failure (kind Byte, literal "abc") starting
from a state with both generations nonempty leaves both empty. -/
theorem firstScan_clears_witness :
    (firstScan trivEnv stBoth .BYTE "abc" "exact").1 ≠ .ok ∧
    (firstScan trivEnv stBoth .BYTE "abc" "exact").2.previousScanResults = [] ∧
    (firstScan trivEnv stBoth .BYTE "abc" "exact").2.scanResults = [] :=
  ⟨by decide, (firstScan_clears trivEnv stBoth .BYTE "abc" "exact").1,
    (firstScan_clears trivEnv stBoth .BYTE "abc" "exact").2 (by decide)⟩

/-- The watch loop threads the scanner state through unchanged for any
fuel, poll trace and baseline. -/
theorem watchLoop_fst (poll : Nat → Option (List Nat)) (w : Nat)
    (st : ScanState) : ∀ fuel i lastValue events,
    (watchLoop poll w st fuel i lastValue events).1 = st := by
  intro fuel
  induction fuel with
  | zero => intro i l e; rfl
  | succ k ih =>
      intro i l e
      cases hp : pollOk poll w i with
      | none => simp [watchLoop, hp]
      | some cur =>
          by_cases h : memcmpEq l cur w = true <;> simp [watchLoop, hp, h, ih]

/-- Claim C10: for every address, value kind, polling interval, poll
trace and fuel, `watchAddress` returns the scanner state it was given:
result sets, region catalog and attachment state are untouched. -/
theorem watchAddress_preserves_state (poll : Nat → Option (List Nat))
    (st : ScanState) (address : Nat) (t : ValueType)
    (updateInterval fuel : Nat) :
    (watchAddress poll st address t updateInterval fuel).1 = st := by
  unfold watchAddress
  by_cases h : st.isAttached = false
  · rw [if_pos h]
  · rw [if_neg h]
    cases hp : pollOk poll (watchWidth t) 0 with
    | none => simp [hp]
    | some init => simp [hp, watchLoop_fst]

/-- Each refine pass appends at most one match per previous entry. -/
theorem refineLoop_length_le (env : Env) (t : ValueType) (c : String)
    (target : List Nat) (w : Nat) :
    ∀ l : List ScanResult, (refineLoop env t c target w l).length ≤ l.length := by
  intro l
  induction l with
  | nil => simp [refineLoop]
  | cons pr rest ih =>
      cases hre : readMemOk env pr.address w with
      | none =>
          simp only [refineLoop, hre, List.length_cons]
          omega
      | some cur =>
          by_cases h : evalPredNext env t c cur target pr.value w = true <;>
            simp only [refineLoop, hre, h, if_true, if_false, List.length_cons,
              Bool.false_eq_true] <;> omega

/-- Every match a refine pass keeps carries the address of some entry
of the list it consumed. -/
theorem refineLoop_mem_address (env : Env) (t : ValueType) (c : String)
    (target : List Nat) (w : Nat) :
    ∀ (l : List ScanResult) (r : ScanResult), r ∈ refineLoop env t c target w l →
      ∃ p ∈ l, r.address = p.address := by
  intro l
  induction l with
  | nil => intro r hr; simp [refineLoop] at hr
  | cons pr rest ih =>
      intro r hr
      cases hre : readMemOk env pr.address w with
      | none =>
          rw [refineLoop, hre] at hr
          obtain ⟨p, hp, e⟩ := ih r hr
          exact ⟨p, List.mem_cons_of_mem _ hp, e⟩
      | some cur =>
          simp only [refineLoop, hre] at hr
          by_cases h : evalPredNext env t c cur target pr.value w = true
          · rw [if_pos h] at hr
            rcases List.mem_cons.mp hr with h1 | h2
            · exact ⟨pr, List.mem_cons_self pr rest, by rw [h1]⟩
            · obtain ⟨p, hp, e⟩ := ih r h2
              exact ⟨p, List.mem_cons_of_mem _ hp, e⟩
          · rw [if_neg h] at hr
            obtain ⟨p, hp, e⟩ := ih r hr
            exact ⟨p, List.mem_cons_of_mem _ hp, e⟩

/-- Claim C3: for every predicate and every input, every address in the
result set produced by `nextScan` already occurs in the generation it
consumed (the current set that is moved into `previous`): refine never
introduces a new address. -/
theorem nextScan_address_subset (env : Env) (st : ScanState) (t : ValueType)
    (v c : String) (r : ScanResult)
    (hr : r ∈ (nextScan env st t v c).2.scanResults) :
    r.address ∈ st.scanResults.map ScanResult.address := by
  unfold nextScan at hr
  by_cases he : st.scanResults.isEmpty
  · rw [if_pos he] at hr
    rw [List.isEmpty_iff] at he
    rw [he] at hr ⊢
    simp at hr
  · rw [if_neg he] at hr
    cases hee : encodeValue env t v with
    | parseFail => rw [hee] at hr; simp at hr
    | unsupportedType => rw [hee] at hr; simp at hr
    | ok target =>
        rw [hee] at hr
        simp only at hr
        obtain ⟨p, hp, e⟩ :=
          refineLoop_mem_address env t c target target.length st.scanResults r hr
        exact List.mem_map.mpr ⟨p, hp, e.symm⟩

/-- Witness for C3: a concrete refine pass that keeps its one match,
whose address is among the consumed addresses. -/
theorem nextScan_address_subset_witness :
    m0 ∈ (nextScan env0 stSmall .BYTE "0" "unchanged").2.scanResults ∧
    m0.address ∈ stSmall.scanResults.map ScanResult.address :=
  ⟨by decide, nextScan_address_subset env0 stSmall .BYTE "0" "unchanged" m0 (by decide)⟩

/-- Claim C4: on a successfully re-read address (so the fresh buffer has
the scan width) whose stored bytes have that same width, the refine
predicate `changed` succeeds exactly when the fresh bytes differ from
the match's own previously stored bytes and `unchanged` exactly when
they coincide; the search literal plays no role in either branch, and
the two predicates are complementary. -/
theorem changed_unchanged_semantics (env : Env) (t : ValueType)
    (cur target prevBytes : List Nat) (w : Nat)
    (hc : cur.length = w) (hp : prevBytes.length = w) :
    (evalPredNext env t "changed" cur target prevBytes w = true ↔ cur ≠ prevBytes) ∧
    (evalPredNext env t "unchanged" cur target prevBytes w = true ↔ cur = prevBytes) ∧
    (∀ target2,
      evalPredNext env t "changed" cur target prevBytes w =
        evalPredNext env t "changed" cur target2 prevBytes w ∧
      evalPredNext env t "unchanged" cur target prevBytes w =
        evalPredNext env t "unchanged" cur target2 prevBytes w) ∧
    (evalPredNext env t "changed" cur target prevBytes w =
      !evalPredNext env t "unchanged" cur target prevBytes w) := by
  have hcur : cur.take w = cur := by rw [← hc]; exact List.take_length cur
  have hprev : prevBytes.take w = prevBytes := by rw [← hp]; exact List.take_length prevBytes
  have hch : ∀ tg, evalPredNext env t "changed" cur tg prevBytes w =
      !memcmpEq cur prevBytes w := by
    intro tg
    unfold evalPredNext
    rw [if_neg (by decide), if_neg (by decide), if_neg (by decide), if_pos rfl]
  have hun : ∀ tg, evalPredNext env t "unchanged" cur tg prevBytes w =
      memcmpEq cur prevBytes w := by
    intro tg
    unfold evalPredNext
    rw [if_neg (by decide), if_neg (by decide), if_neg (by decide),
      if_neg (by decide), if_pos rfl]
  have hmem : memcmpEq cur prevBytes w = true ↔ cur = prevBytes := by
    unfold memcmpEq
    rw [hcur, hprev]
    exact beq_iff_eq
  refine ⟨?_, ?_, ?_, ?_⟩
  · rw [hch]
    constructor
    · intro hb he
      rw [Bool.not_eq_true'] at hb
      exact absurd (hmem.mpr he) (by simp [hb])
    · intro hne
      rw [Bool.not_eq_true']
      by_contra hb
      rw [Bool.not_eq_false] at hb
      exact hne (hmem.mp hb)
  · rw [hun]; exact hmem
  · intro tg2; exact ⟨by rw [hch, hch], by rw [hun, hun]⟩
  · rw [hch, hun]

/-- Witness for C4 at width 1: fresh byte 1, stored byte 0, literal 5. -/
theorem changed_unchanged_semantics_witness :
    ([1] : List Nat).length = 1 ∧ ([0] : List Nat).length = 1 ∧
    (evalPredNext trivEnv .BYTE "changed" [1] [5] [0] 1 = true ↔
      ([1] : List Nat) ≠ [0]) :=
  ⟨rfl, rfl, (changed_unchanged_semantics trivEnv .BYTE [1] [5] [0] 1 rfl rfl).1⟩

/-- The size of the result set a refine pass builds never exceeds the
size of the generation it consumes (there is no explicit ceiling in
`nextScan`; the bound comes from one-match-per-previous-entry). -/
theorem nextScan_length_le (env : Env) (st : ScanState) (t : ValueType)
    (v c : String) :
    (nextScan env st t v c).2.scanResults.length ≤ st.scanResults.length := by
  unfold nextScan
  by_cases he : st.scanResults.isEmpty
  · rw [if_pos he]
  · rw [if_neg he]
    cases hee : encodeValue env t v with
    | parseFail => simp
    | unsupportedType => simp
    | ok target =>
        simp only
        exact refineLoop_length_le env t c target target.length st.scanResults

/-- Claim C1, as amended: `nextScan` has no ceiling check of its own;
its result set is bounded by the consumed generation's size, so a
refine pass that consumes a generation of at most 10000 entries (the
bound `firstScan` enforces) again produces at most 10000 matches. -/
theorem nextScan_bounded_by_previous (env : Env) (st : ScanState)
    (t : ValueType) (v c : String) (h : st.scanResults.length ≤ 10000) :
    (nextScan env st t v c).2.scanResults.length ≤ 10000 :=
  le_trans (nextScan_length_le env st t v c) h

/-- Witness for the amended C1 at a one-entry generation. -/
theorem nextScan_bounded_by_previous_witness :
    stSmall.scanResults.length ≤ 10000 ∧
    (nextScan env0 stSmall .BYTE "0" "unchanged").2.scanResults.length ≤ 10000 :=
  ⟨by decide, nextScan_bounded_by_previous env0 stSmall .BYTE "0" "unchanged" (by decide)⟩

/-- Under `env0` every re-read of `m0` succeeds with the stored bytes,
so an unchanged-refine of n copies keeps all n. -/
theorem refineLoop_env0_replicate :
    ∀ n, (refineLoop env0 .BYTE "unchanged" [0] 1 (List.replicate n m0)).length = n := by
  intro n
  induction n with
  | zero => simp [refineLoop]
  | succ k ih =>
      rw [List.replicate_succ]
      have h1 : readMemOk env0 m0.address 1 = some [0] := by decide
      have h2 : evalPredNext env0 .BYTE "unchanged" [0] [0] m0.value 1 = true := by decide
      simp only [refineLoop, h1, h2, if_true, List.length_cons]
      omega

/-- Counterexample to claim C1 as stated: fed a current generation of
10001 entries that all still satisfy the predicate, `nextScan` keeps
all 10001 of them - it never stops appending at the 10000-entry
ceiling, because unlike `firstScan` it has no ceiling check. -/
theorem nextScan_exceeds_ceiling :
    (nextScan env0 stBig .BYTE "0" "unchanged").2.scanResults.length = 10001 ∧
    ¬ ((nextScan env0 stBig .BYTE "0" "unchanged").2.scanResults.length ≤ 10000) := by
  have hne : stBig.scanResults.isEmpty = false := by
    show (List.replicate 10001 m0).isEmpty = false
    simp [List.isEmpty_iff]
  have henc : encodeValue env0 .BYTE "0" = .ok [0] := by decide
  have hlen : (nextScan env0 stBig .BYTE "0" "unchanged").2.scanResults.length = 10001 := by
    unfold nextScan
    rw [if_neg (by rw [hne]; exact Bool.false_ne_true)]
    rw [henc]
    simp only
    exact refineLoop_env0_replicate 10001
  exact ⟨hlen, by omega⟩

/-- Counterexample to claim C8 as stated: the save file of a concrete
one-match result set carries five lines beginning with the character
number 35, not four - `saveResults` also writes a fifth metadata line
naming the column format. -/
theorem saveResults_five_hash_lines :
    ((saveResults stSmall 42).getD []).countP
      (fun s => s.data.head? == some '#') = 5 ∧
    ¬ (((saveResults stSmall 42).getD []).countP
      (fun s => s.data.head? == some '#') = 4) := by
  exact ⟨by decide, by decide⟩

/-- Claim C8, as amended: for every nonempty result set the save file
is exactly five metadata lines beginning with the character number 35
(title, target process identity, timestamp, result count, column
format) followed by one line per match of the form
id,0xADDRESS,kindOrdinal,hexbytes,description in result-set order. -/
theorem saveResults_format (st : ScanState) (ts : Nat)
    (h : st.scanResults ≠ []) :
    (saveResults st ts).isSome = true ∧
    ((saveResults st ts).getD []).take 5 =
      ["# MacMemory Scan Results",
       "# Process: " ++ st.targetName ++ " (PID: " ++ Nat.repr st.targetPid ++ ")",
       "# Timestamp: " ++ Nat.repr ts,
       "# Results: " ++ Nat.repr st.scanResults.length,
       "# Format: ID,Address,Type,Value,Description"] ∧
    ((saveResults st ts).getD []).drop 5 =
      st.scanResults.enum.map (fun p => matchLine p.1 p.2) ∧
    (∀ i r, matchLine i r =
      idRepr i ++ ",0x" ++ natToHex r.address ++ "," ++ Nat.repr (typeOrdinal r.type)
        ++ "," ++ bytesToHex r.value ++ "," ++ r.description) ∧
    ((saveResults st ts).getD []).length = 5 + st.scanResults.length := by
  have hsome : saveResults st ts =
      some (saveHeader st ts ++ st.scanResults.enum.map (fun p => matchLine p.1 p.2)) := by
    unfold saveResults
    rw [if_neg (by simp [List.isEmpty_iff, h])]
  rw [hsome]
  refine ⟨rfl, rfl, rfl, fun i r => rfl, ?_⟩
  show (saveHeader st ts ++ st.scanResults.enum.map (fun p => matchLine p.1 p.2)).length = _
  rw [List.length_append, List.length_map, List.enum_length]
  rfl

/-- Witness for the amended C8 at a concrete one-match state. -/
theorem saveResults_format_witness :
    stSmall.scanResults ≠ [] ∧
    ((saveResults stSmall 42).getD []).length = 5 + stSmall.scanResults.length :=
  ⟨by decide, (saveResults_format stSmall 42 (by decide)).2.2.2.2⟩

/-- The inner offset loop of the first pass respects the ceiling:
started below 10000 with an accumulator matching the counter, it ends
at or below 10000 with the accumulator still matching the counter. -/
theorem scanOffsets_ceiling (env : Env) (t : ValueType) (c : String)
    (target : List Nat) (w base : Nat) (buf : List Nat) :
    ∀ (offs : List Nat) (acc : List ScanResult) (hits : Nat),
      hits < 10000 → acc.length = hits →
      (scanOffsets env t c target w base buf offs acc hits).2 ≤ 10000 ∧
      (scanOffsets env t c target w base buf offs acc hits).1.length =
        (scanOffsets env t c target w base buf offs acc hits).2 := by
  intro offs
  induction offs with
  | nil => intro acc hits hlt hacc; exact ⟨Nat.le_of_lt hlt, hacc⟩
  | cons o rest ih =>
      intro acc hits hlt hacc
      by_cases hf : evalPredFirst env t c ((buf.drop o).take w) target w = true
      · by_cases hcap : hits + 1 ≥ 10000
        · simp only [scanOffsets, hf, if_true, if_pos hcap]
          constructor
          · omega
          · simp [List.length_append, hacc]
        · simp only [scanOffsets, hf, if_true, if_neg hcap]
          exact ih _ (hits + 1) (by omega) (by simp [List.length_append, hacc])
      · simp only [scanOffsets, hf, Bool.false_eq_true, if_false]
        exact ih acc hits hlt hacc

/-- The region loop of the first pass respects the ceiling. -/
theorem scanRegions_ceiling (env : Env) (t : ValueType) (c : String)
    (target : List Nat) (w : Nat) :
    ∀ (regions : List MemoryRegion) (acc : List ScanResult) (hits : Nat),
      hits < 10000 → acc.length = hits →
      (scanRegions env t c target w regions acc hits).length ≤ 10000 := by
  intro regions
  induction regions with
  | nil => intro acc hits hlt hacc; rw [scanRegions]; omega
  | cons r rest ih =>
      intro acc hits hlt hacc
      rw [scanRegions]
      by_cases hr : r.readable = false
      · rw [if_pos hr]; exact ih acc hits hlt hacc
      · rw [if_neg hr]
        cases hread : readMemOk env r.start r.size with
        | none => exact ih acc hits hlt hacc
        | some buf =>
            simp only
            obtain ⟨h1, h2⟩ := scanOffsets_ceiling env t c target w r.start buf
              (offsetList buf.length w) acc hits hlt hacc
            by_cases hcap :
                (scanOffsets env t c target w r.start buf
                  (offsetList buf.length w) acc hits).2 ≥ 10000
            · rw [if_pos hcap]; omega
            · rw [if_neg hcap]
              exact ih _ _ (by omega) h2

/-- First-pass ceiling: `firstScan` never returns more than 10000
matches (it stops scanning once the ceiling is reached), so every
generation a refine pass can consume is at most 10000 entries. -/
theorem firstScan_le_10000 (env : Env) (st : ScanState) (t : ValueType)
    (v c : String) : (firstScan env st t v c).2.scanResults.length ≤ 10000 := by
  unfold firstScan
  cases encodeValue env t v with
  | parseFail => simp
  | unsupportedType => simp
  | ok target =>
      simp only
      exact scanRegions_ceiling env t c target target.length st.memoryRegions [] 0
        (by omega) rfl
